import Mathlib

/-
Verification of the clipboard-watcher (tools/todo_it_clipboard.py).

Shallow embedding: the pure classifier `parse_clipboard_text` is translated
directly; the stateful pieces (`get_oauth_access_token`, `post_payload`, the
watch loop in `main`) are translated with their external effects made explicit
as inputs (cache-file contents, refresh/flow results, the network response) and
outputs (resulting file contents, whether a request was sent, the outcome).
-/

namespace TodoClip

/-! ### Python character classes

`str.splitlines` boundaries and `str.strip` / `str.isspace` whitespace,
restricted to the code points Python treats that way (ASCII plus the common
Unicode ones).  Every line-break character is also a whitespace character. -/

def isLineBreak (c : Char) : Bool :=
  c = '\n' || c = '\r' || c = '\x0b' || c = '\x0c' ||
  c = '\x1c' || c = '\x1d' || c = '\x1e' || c = '\x85' ||
  c = ' ' || c = ' '

def pyIsSpace (c : Char) : Bool :=
  c = ' ' || c = '\t' || c = '\n' || c = '\r' || c = '\x0b' || c = '\x0c' ||
  c = '\x1c' || c = '\x1d' || c = '\x1e' || c = '\x1f' || c = '\x85' ||
  c = '\xa0' || c = ' ' || (' ' ≤ c && c ≤ ' ') ||
  c = ' ' || c = ' ' || c = ' ' || c = ' ' || c = '　'

/-- Python `str.splitlines` on a character list: split at every line-break
character, with `\r\n` counting as a single boundary; a trailing boundary
produces no extra empty line. -/
def splitlines : List Char → List (List Char)
  | [] => []
  | '\r' :: '\n' :: rest => [] :: splitlines rest
  | c :: rest =>
    if isLineBreak c then [] :: splitlines rest
    else
      match splitlines rest with
      | [] => [[c]]
      | l :: ls => (c :: l) :: ls

/-- Python `str.strip()`: drop whitespace from both ends
(`List.rdropWhile p l` is `(l.reverse.dropWhile p).reverse`). -/
def pyStrip (l : List Char) : List Char :=
  (l.dropWhile pyIsSpace).rdropWhile pyIsSpace

/-- The stripped form of a line when it is non-blank, else `none`
(the `if candidate.strip():` test in the source). -/
def strippedIfNonblank (l : List Char) : Option (List Char) :=
  if pyStrip l = [] then none else some (pyStrip l)

/-- The source's first-non-blank-line scan: the first line whose stripped form
is non-empty, returned stripped. -/
def firstLineVal (l : List Char) : Option (List Char) :=
  (splitlines l).findSome? strippedIfNonblank

def first_nonblank_line (raw : String) : Option String :=
  (firstLineVal raw.data).map List.asString

/-! ### The tag pattern

`PREFIX_RE = ^([A-Za-z0-9]+):(.*)$` matched with `re.match` against a line with
no line breaks: it succeeds iff the maximal ASCII-alphanumeric run at the start
of the line is non-empty and immediately followed by a colon; group 1 is that
run, group 2 the remainder of the line. -/

def isAsciiAlnum (c : Char) : Bool :=
  ('A' ≤ c && c ≤ 'Z') || ('a' ≤ c && c ≤ 'z') || ('0' ≤ c && c ≤ '9')

def tagSplit (l : List Char) : Option (List Char × List Char) :=
  match l.dropWhile isAsciiAlnum with
  | c :: rest =>
    if c = ':' ∧ l.takeWhile isAsciiAlnum ≠ [] then
      some (l.takeWhile isAsciiAlnum, rest)
    else none
  | [] => none

/-- Python `str.lower` on the ASCII-alphanumeric tag token. -/
def pyLowerChar (c : Char) : Char :=
  if 'A' ≤ c && c ≤ 'Z' then Char.ofNat (c.toNat + 32) else c

def pyLower (l : List Char) : List Char := l.map pyLowerChar

/-! ### The classifier -/

/-- The dict `{"type": prefix, "section": section, "text": text}` returned by
`parse_clipboard_text` (the spec's `ClassifiedEntry`; `type` is the tag). -/
structure ClassifiedEntry where
  type : String
  section_ : String
  text : String
deriving DecidableEq, Repr

/-- The tag map: an association list standing for the Python dict
(first binding wins, as dict lookup is single-valued). -/
abbrev TagMap := List (String × String)

/-- The unknown-tag block of `parse_clipboard_text`: keep a known (lower-cased)
tag; otherwise substitute the reserved fallback tag `misc` under the
`map_to_misc` policy, or drop the entry. -/
def resolveTag (p0 : String) (unknown_behavior : String) (tag_map : TagMap) :
    Option String :=
  if (tag_map.lookup p0).isSome then some p0
  else if unknown_behavior = "map_to_misc" then some "misc"
  else none

/-- The part of `parse_clipboard_text` after the first non-blank line has been
selected (already stripped): regex match, empty-remainder check, unknown-tag
policy, section resolution (`str(tag_map.get(prefix, "")).strip()`). -/
def classifyLine (line : List Char) (unknown_behavior : String) (tag_map : TagMap) :
    Option ClassifiedEntry :=
  match tagSplit line with
  | none => none
  | some (tok, rest) =>
    if pyStrip rest = [] then none
    else
      match resolveTag (pyLower tok).asString unknown_behavior tag_map with
      | none => none
      | some p =>
        if pyStrip ((tag_map.lookup p).getD "").data = [] then none
        else
          some ⟨p, (pyStrip ((tag_map.lookup p).getD "").data).asString,
            (pyStrip rest).asString⟩

/-- `parse_clipboard_text(raw_text, unknown_behavior, tag_map)`: select the
first non-blank line (stripped), then classify it. -/
def parse_clipboard_text (raw_text : String) (unknown_behavior : String)
    (tag_map : TagMap) : Option ClassifiedEntry :=
  match firstLineVal raw_text.data with
  | none => none
  | some line => classifyLine line unknown_behavior tag_map

/-- The built-in `DEFAULT_TAG_MAP`. -/
def DEFAULT_TAG_MAP : TagMap :=
  [("todo", "TODO"), ("fu", "Follow Up"), ("misc", "Miscellany")]

/-! ### Credential manager (`get_oauth_access_token`)

The external effects are made explicit: the token-cache file contents, the
existence of the client-secrets file, and the results the google-auth library
would produce for `creds.refresh(Request())` and for the interactive
`flow.run_local_server(...)` are inputs; the resulting cache-file contents and
whether a write / an interactive exchange happened are outputs.  A raised
Python exception is an `Except.error`. -/

/-- A `google.oauth2.credentials.Credentials` object as far as this program
inspects it.  `valid` in google-auth is `token is not None and not expired`;
`expired` abstracts the expiry-vs-now comparison. -/
structure Creds where
  token : Option String
  expired : Bool
  refresh_token : Option String
deriving DecidableEq, Repr

/-- Python truthiness of an optional string (`None` and `""` are falsy). -/
def optTruthy : Option String → Bool
  | none => false
  | some s => s ≠ ""

def Creds.valid (c : Creds) : Bool := c.token.isSome && !c.expired

/-- The exceptions `get_oauth_access_token` can raise. -/
inductive AuthError where
  | clientSecretsMissing (path : String)
  | refreshError (msg : String)
  | flowError (msg : String)
  | noToken
deriving DecidableEq, Repr

/-- The message carried by each exception (`FileNotFoundError` /
library errors / `RuntimeError`), as rendered into the auth-failure log. -/
def authErrorMessage : AuthError → String
  | .clientSecretsMissing p => "OAuth client secrets file not found: " ++ p
  | .refreshError m => m
  | .flowError m => m
  | .noToken => "Could not obtain OAuth access token"

deriving instance DecidableEq for Except

/-- Everything outside the process that `get_oauth_access_token` consults. -/
structure OAuthEnv where
  cached : Option Creds
  client_secrets_exists : Bool
  client_secrets_path : String
  refreshResult : Except String Creds
  flowResult : Except String Creds
deriving DecidableEq, Repr

/-- Result of a successful `get_oauth_access_token`: the returned token, the
token-cache file contents afterwards, and whether the file was written /
an interactive authorization ran. -/
structure AuthResult where
  token : String
  fileAfter : Option Creds
  wrote : Bool
  interactiveRan : Bool
deriving DecidableEq, Repr

/-- The final `if not creds or not creds.token: raise RuntimeError` check and
the `return str(creds.token)`. -/
def finalTokenCheck (creds : Option Creds) (fileAfter : Option Creds)
    (wrote interactiveRan : Bool) : Except AuthError AuthResult :=
  match creds with
  | none => .error .noToken
  | some c =>
    if optTruthy c.token then .ok ⟨c.token.getD "", fileAfter, wrote, interactiveRan⟩
    else .error .noToken

/-- `get_oauth_access_token(oauth_cfg)`.  Mirrors the source: load the cache if
present; if the loaded credential is missing or invalid, either refresh (when
expired with a truthy refresh token — a refresh failure propagates) or run the
interactive flow (requiring the client-secrets file), then write the cache
file; finally check a token is present. -/
def get_oauth_access_token (env : OAuthEnv) : Except AuthError AuthResult :=
  let creds := env.cached
  let needWork : Bool :=
    match creds with
    | none => true
    | some c => !c.valid
  if needWork then
    let refreshable : Bool :=
      match creds with
      | none => false
      | some c => c.expired && optTruthy c.refresh_token
    let step : Except AuthError (Creds × Bool) :=
      if refreshable then
        match env.refreshResult with
        | .ok c' => .ok (c', false)
        | .error e => .error (.refreshError e)
      else if !env.client_secrets_exists then
        .error (.clientSecretsMissing env.client_secrets_path)
      else
        match env.flowResult with
        | .ok c' => .ok (c', true)
        | .error e => .error (.flowError e)
    match step with
    | .error e => .error e
    | .ok (c', ran) => finalTokenCheck (some c') (some c') true ran
  else
    finalTokenCheck creds env.cached false false

/-- `True` exactly when the source would enter the interactive branch:
no usable cached credential and no refresh possible. -/
def needsInteractive (env : OAuthEnv) : Bool :=
  match env.cached with
  | none => true
  | some c => !c.valid && !(c.expired && optTruthy c.refresh_token)

/-! ### Delivery client (`post_payload`) -/

/-- What the network produces for the single `urllib.request.urlopen` call:
a response object, or one of the exceptions the source catches. -/
inductive NetResult where
  | response (status : Nat) (body : String)
  | httpError (code : Nat) (detail : String)
  | urlError (detail : String)
  | otherError (detail : String)
deriving DecidableEq, Repr

/-- The spec's delivery outcomes, read off from the branch `post_payload`
takes (the source logs the reason and returns a Bool). -/
inductive Outcome where
  | Delivered
  | Rejected (status : Nat) (body : String)
  | TransportFailure (detail : String)
  | AuthFailure (reason : String)
deriving DecidableEq, Repr

/-- Result of `post_payload`: its Bool return value, the outcome
classification of the branch taken, and whether the HTTP request was
built and sent at all. -/
structure PostOut where
  ok : Bool
  outcome : Outcome
  requestSent : Bool
deriving DecidableEq, Repr

/-- The `urlopen` block: 2xx status with body stripping to `"OK"` is success;
other responses and `HTTPError` are logged rejections; `URLError` and any
other exception are logged transport-level failures.  Total: every branch
returns. -/
def sendRequest (net : NetResult) : PostOut :=
  match net with
  | .response status body =>
    if 200 ≤ status ∧ status < 300 ∧ (pyStrip body.data).asString = "OK" then
      ⟨true, .Delivered, true⟩
    else
      ⟨false, .Rejected status (pyStrip body.data).asString, true⟩
  | .httpError code detail => ⟨false, .Rejected code detail, true⟩
  | .urlError d => ⟨false, .TransportFailure d, true⟩
  | .otherError d => ⟨false, .TransportFailure d, true⟩

/-- `post_payload(web_app_url, payload, config)`.  Under `oauth_user` the token
is obtained first; any exception there is caught, logged as an auth failure,
and `False` is returned before a request is built.  The outcome of the network
step does not depend on the payload, so the payload is not threaded through. -/
def post_payload (auth_mode : String) (auth : Except AuthError AuthResult)
    (net : NetResult) : PostOut :=
  if auth_mode = "oauth_user" then
    match auth with
    | .error e => ⟨false, .AuthFailure (authErrorMessage e), false⟩
    | .ok _ => sendRequest net
  else sendRequest net

/-! ### Watch loop (`main`) -/

/-- One clipboard poll: `pyperclip.paste()` returning a value, or raising. -/
inductive ClipRead where
  | ok (s : String)
  | err (msg : String)
deriving DecidableEq, Repr

/-- The configuration fields the loop body reads. -/
structure LoopConfig where
  unknown_prefix_behavior : String
  tag_map : TagMap
  who : String
  auth_mode : String
deriving Repr

/-- What one iteration of the `while True` body did. -/
structure IterOut where
  last_clipboard : Option String
  processed : Bool
  parsed : Option ClassifiedEntry
  delivery : Option PostOut
deriving DecidableEq, Repr

/-- One iteration of the watch loop body: on a read error, log and continue
with `last_clipboard` unchanged; on unchanged content, skip; otherwise update
`last_clipboard` first, then classify, then deliver if classification
succeeded. -/
def loop_iter (cfg : LoopConfig) (auth : Except AuthError AuthResult)
    (net : NetResult) (last : Option String) (read : ClipRead) : IterOut :=
  match read with
  | .err _ => ⟨last, false, none, none⟩
  | .ok current =>
    if last = some current then ⟨last, false, none, none⟩
    else
      match parse_clipboard_text current cfg.unknown_prefix_behavior cfg.tag_map with
      | none => ⟨some current, true, none, none⟩
      | some e => ⟨some current, true, some e, some (post_payload cfg.auth_mode auth net)⟩

/-- The loop run over a finite list of successive clipboard reads, collecting
each iteration's record. -/
def iterTrace (cfg : LoopConfig) (auth : Except AuthError AuthResult)
    (net : NetResult) : Option String → List ClipRead → List IterOut
  | _, [] => []
  | last, r :: rs =>
    let o := loop_iter cfg auth net last r
    o :: iterTrace cfg auth net o.last_clipboard rs

/-- Bool form of "no iteration in the trace processed its read". -/
def noneProcessed (l : List IterOut) : Bool := l.all fun o => !o.processed

/-- Bool form of "every ok-read in the list carries the value `v`". -/
def allReadsAre (v : String) : List ClipRead → Bool
  | [] => true
  | .ok s :: rs => s = v && allReadsAre v rs
  | .err _ :: rs => allReadsAre v rs

/-! ### Sanity checks on the classifier (the spec's stated test cases) -/

theorem pyIsSpace_of_isLineBreak {c : Char} (h : isLineBreak c = true) :
    pyIsSpace c = true := by
  simp only [isLineBreak, Bool.or_eq_true, decide_eq_true_eq] at h
  rcases h with ((((((((h | h) | h) | h) | h) | h) | h) | h) | h) | h <;> subst h <;> decide

example : parse_clipboard_text "todo: buy milk" "map_to_misc" DEFAULT_TAG_MAP =
    some ⟨"todo", "TODO", "buy milk"⟩ := by decide

example : parse_clipboard_text "\n  \nTODO:  buy milk \nrest" "map_to_misc" DEFAULT_TAG_MAP =
    some ⟨"todo", "TODO", "buy milk"⟩ := by decide

example : parse_clipboard_text "xyz: something" "ignore" DEFAULT_TAG_MAP = none := by decide

example : parse_clipboard_text "xyz: something" "map_to_misc" DEFAULT_TAG_MAP =
    some ⟨"misc", "Miscellany", "something"⟩ := by decide

example : parse_clipboard_text "todo:   " "map_to_misc" DEFAULT_TAG_MAP = none := by decide

/-! ### Lemmas about `pyStrip` -/

theorem pyStrip_nil : pyStrip [] = [] := rfl

theorem pyStrip_cons_space {c : Char} (l : List Char) (h : pyIsSpace c = true) :
    pyStrip (c :: l) = pyStrip l := by
  unfold pyStrip
  rw [List.dropWhile_cons_of_pos h]

theorem mem_of_mem_pyStrip {c : Char} {l : List Char} (h : c ∈ pyStrip l) : c ∈ l := by
  unfold pyStrip at h
  have h1 : c ∈ l.dropWhile pyIsSpace :=
    (List.rdropWhile_prefix pyIsSpace (l.dropWhile pyIsSpace)).subset h
  exact (List.dropWhile_suffix pyIsSpace).subset h1

theorem pyStrip_eq_nil_iff {l : List Char} :
    pyStrip l = [] ↔ ∀ c ∈ l, pyIsSpace c = true := by
  unfold pyStrip
  rw [List.rdropWhile_eq_nil_iff]
  constructor
  · intro h c hc
    rcases List.mem_append.mp ((List.takeWhile_append_dropWhile pyIsSpace l) ▸ hc) with h2 | h2
    · exact List.mem_takeWhile_imp h2
    · exact h c h2
  · intro h c hc
    exact h c ((List.dropWhile_suffix pyIsSpace).subset hc)

theorem pyStrip_idem (l : List Char) : pyStrip (pyStrip l) = pyStrip l := by
  unfold pyStrip
  have hfix : (l.dropWhile pyIsSpace).dropWhile pyIsSpace = l.dropWhile pyIsSpace :=
    List.dropWhile_idempotent _ _
  have hd : List.dropWhile pyIsSpace ((l.dropWhile pyIsSpace).rdropWhile pyIsSpace) =
      (l.dropWhile pyIsSpace).rdropWhile pyIsSpace := by
    obtain ⟨t, ht⟩ := List.rdropWhile_prefix pyIsSpace (l.dropWhile pyIsSpace)
    cases hz : (l.dropWhile pyIsSpace).rdropWhile pyIsSpace with
    | nil => rfl
    | cons a z' =>
      rw [hz] at ht
      have hd0 : l.dropWhile pyIsSpace = a :: (z' ++ t) := by
        rw [← ht]
        simp
      have hna : ¬ pyIsSpace a = true := by
        intro hpa
        have h2 := hfix
        rw [hd0, List.dropWhile_cons_of_pos hpa] at h2
        have hlen := congrArg List.length h2
        have hle : (List.dropWhile pyIsSpace (z' ++ t)).length ≤ (z' ++ t).length :=
          List.Sublist.length_le (List.dropWhile_sublist _)
        simp at hlen hle
        omega
      exact List.dropWhile_cons_of_neg hna
  rw [hd, List.rdropWhile_idempotent]

theorem rdropWhile_append_space {d w : List Char} (hw : ∀ c ∈ w, pyIsSpace c = true) :
    (d ++ w).rdropWhile pyIsSpace = d.rdropWhile pyIsSpace := by
  induction w using List.reverseRecOn with
  | nil => simp
  | append_singleton w' x ih =>
    have hx : pyIsSpace x = true := hw x (by simp)
    have hw' : ∀ c ∈ w', pyIsSpace c = true := fun c hc => hw c (by simp [hc])
    rw [← List.append_assoc, List.rdropWhile_concat_pos _ _ _ hx]
    exact ih hw'

theorem pyStrip_append_space_right {l w : List Char} (hw : ∀ c ∈ w, pyIsSpace c = true) :
    pyStrip (l ++ w) = pyStrip l := by
  unfold pyStrip
  rw [List.dropWhile_append]
  by_cases hd : (l.dropWhile pyIsSpace).isEmpty
  · rw [if_pos hd]
    rw [List.isEmpty_iff] at hd
    rw [List.dropWhile_eq_nil_iff.mpr hw, hd]
  · rw [if_neg hd]
    exact rdropWhile_append_space hw

theorem pyStrip_append_space_left {w l : List Char} (hw : ∀ c ∈ w, pyIsSpace c = true) :
    pyStrip (w ++ l) = pyStrip l := by
  induction w with
  | nil => rfl
  | cons c w' ih =>
    rw [List.cons_append, pyStrip_cons_space _ (hw c (by simp))]
    exact ih fun c hc => hw c (by simp [hc])

/-! ### Lemmas about `splitlines` and the first non-blank line -/

theorem splitlines_nil : splitlines [] = [] := rfl

set_option maxHeartbeats 2000000 in
theorem splitlines_crlf (r : List Char) :
    splitlines ('\r' :: '\n' :: r) = [] :: splitlines r :=
  splitlines.eq_2 r

theorem splitlines_cons_eq (c : Char) (r : List Char)
    (h : ∀ t, c = '\r' → r = '\n' :: t → False) :
    splitlines (c :: r) =
      if isLineBreak c = true then [] :: splitlines r
      else
        match splitlines r with
        | [] => [[c]]
        | l :: ls => (c :: l) :: ls :=
  splitlines.eq_3 c r h

theorem splitlines_cons_break {c : Char} (r : List Char) (hb : isLineBreak c = true)
    (hc : c ≠ '\r') : splitlines (c :: r) = [] :: splitlines r := by
  rw [splitlines_cons_eq c r (fun _ h1 _ => hc h1), if_pos hb]

theorem splitlines_cr_not_lf (r : List Char) (hr : ∀ t, r ≠ '\n' :: t) :
    splitlines ('\r' :: r) = [] :: splitlines r := by
  rw [splitlines_cons_eq '\r' r (fun t _ h2 => hr t h2), if_pos (by decide)]

theorem splitlines_cons_nonbreak {c : Char} (r : List Char) (hb : isLineBreak c = false) :
    splitlines (c :: r) =
      match splitlines r with
      | [] => [[c]]
      | l :: ls => (c :: l) :: ls := by
  have hc : c ≠ '\r' := by
    rintro rfl
    simp [isLineBreak] at hb
  rw [splitlines_cons_eq c r (fun _ h1 _ => hc h1), if_neg (by simp [hb])]

theorem splitlines_cons_ne_nil (c : Char) (r : List Char) : splitlines (c :: r) ≠ [] := by
  rw [splitlines.eq_def]
  split
  · simp_all
  · simp
  · split
    · simp
    · split <;> simp

theorem splitlines_eq_nil_iff {l : List Char} : splitlines l = [] ↔ l = [] := by
  cases l with
  | nil => simp [splitlines_nil]
  | cons c r => simp [splitlines_cons_ne_nil]

theorem firstLineVal_nil : firstLineVal [] = none := rfl

theorem strippedIfNonblank_nil : strippedIfNonblank [] = none := rfl

theorem firstLineVal_cons_space {c : Char} (l : List Char) (h : pyIsSpace c = true) :
    firstLineVal (c :: l) = firstLineVal l := by
  unfold firstLineVal
  by_cases hb : isLineBreak c = true
  · by_cases hc : c = '\r'
    · subst hc
      cases l with
      | nil => decide
      | cons c₁ t =>
        by_cases h1 : c₁ = '\n'
        · subst h1
          rw [splitlines_crlf, splitlines_cons_break t (by decide) (by decide)]
        · rw [splitlines_cr_not_lf _ (fun t2 ht2 => h1 (List.head_eq_of_cons_eq ht2))]
          simp [List.findSome?_cons, strippedIfNonblank_nil]
    · rw [splitlines_cons_break l hb hc]
      simp [List.findSome?_cons, strippedIfNonblank_nil]
  · rw [splitlines_cons_nonbreak l (by simpa using hb)]
    cases hs : splitlines l with
    | nil =>
      simp [List.findSome?_cons, strippedIfNonblank, pyStrip_cons_space _ h, pyStrip_nil]
    | cons L Ls =>
      have hrw : strippedIfNonblank (c :: L) = strippedIfNonblank L := by
        unfold strippedIfNonblank
        rw [pyStrip_cons_space _ h]
      simp [List.findSome?_cons, hrw]

theorem firstLineVal_append_space {w : List Char} (l : List Char)
    (hw : ∀ c ∈ w, pyIsSpace c = true) : firstLineVal (w ++ l) = firstLineVal l := by
  induction w with
  | nil => rfl
  | cons c w' ih =>
    rw [List.cons_append, firstLineVal_cons_space _ (hw c (by simp))]
    exact ih fun c hc => hw c (by simp [hc])

theorem firstLineVal_all_space {w : List Char} (hw : ∀ c ∈ w, pyIsSpace c = true) :
    firstLineVal w = none := by
  have h := firstLineVal_append_space ([] : List Char) hw
  simpa using h

theorem splitlines_append_lf (a b : List Char) :
    splitlines (a ++ '\n' :: b) = splitlines (a ++ ['\n']) ++ splitlines b := by
  induction a using splitlines.induct with
  | case1 =>
    rw [List.nil_append, List.nil_append,
      splitlines_cons_break b (by decide) (by decide)]
    have h1 : splitlines ['\n'] = [[]] := by decide
    rw [h1]
    rfl
  | case2 rest ih =>
    simp only [List.cons_append] at ih ⊢
    rw [splitlines_crlf, splitlines_crlf, ih]
    rfl
  | case3 c rest g hb ih =>
    simp only [List.cons_append] at ih ⊢
    by_cases hc : c = '\r'
    · subst hc
      cases rest with
      | nil =>
        simp only [List.nil_append]
        have h1 : splitlines ('\r' :: '\n' :: ([] : List Char)) = [[]] := by decide
        rw [splitlines_crlf, h1]
        rfl
      | cons c₁ t =>
        have h1 : c₁ ≠ '\n' := fun h => g t rfl (by rw [h])
        simp only [List.cons_append] at ih ⊢
        rw [splitlines_cr_not_lf _ (fun t2 hx => h1 (List.head_eq_of_cons_eq hx)),
          splitlines_cr_not_lf _ (fun t2 hx => h1 (List.head_eq_of_cons_eq hx)), ih]
        rfl
    · rw [splitlines_cons_break _ hb hc, splitlines_cons_break _ hb hc, ih]
      rfl
  | case4 c rest g hb hsp ih =>
    have hb' : isLineBreak c = false := by simpa using hb
    have hrest : rest = [] := splitlines_eq_nil_iff.mp hsp
    subst hrest
    simp only [List.cons_append, List.nil_append]
    have hlf : splitlines ('\n' :: b) = [] :: splitlines b :=
      splitlines_cons_break b (by decide) (by decide)
    have h1 : splitlines ['\n'] = [[]] := by decide
    rw [splitlines_cons_nonbreak _ hb', hlf, splitlines_cons_nonbreak _ hb', h1]
    rfl
  | case5 c rest g hb L Ls hsp ih =>
    have hb' : isLineBreak c = false := by simpa using hb
    have hne : rest ++ ['\n'] ≠ [] := by simp
    simp only [List.cons_append] at ih ⊢
    cases hS : splitlines (rest ++ ['\n']) with
    | nil => exact absurd (splitlines_eq_nil_iff.mp hS) hne
    | cons M Ms =>
      rw [splitlines_cons_nonbreak _ hb', ih, hS, splitlines_cons_nonbreak _ hb', hS]
      rfl

theorem splitlines_append_lf_nil (a : List Char) :
    splitlines (a ++ ['\n']) = splitlines a ++ [[]] ∨
    splitlines (a ++ ['\n']) = splitlines a := by
  induction a using splitlines.induct with
  | case1 =>
    left
    decide
  | case2 rest ih =>
    simp only [List.cons_append]
    rw [splitlines_crlf, splitlines_crlf]
    rcases ih with h | h
    · left
      rw [h]
      rfl
    · right
      rw [h]
  | case3 c rest g hb ih =>
    simp only [List.cons_append] at ih ⊢
    by_cases hc : c = '\r'
    · subst hc
      cases rest with
      | nil =>
        right
        decide
      | cons c₁ t =>
        have h1 : c₁ ≠ '\n' := fun h => g t rfl (by rw [h])
        simp only [List.cons_append] at ih ⊢
        rw [splitlines_cr_not_lf _ (fun t2 hx => h1 (List.head_eq_of_cons_eq hx)),
          splitlines_cr_not_lf _ (fun t2 hx => h1 (List.head_eq_of_cons_eq hx))]
        rcases ih with h | h
        · left
          rw [h]
          rfl
        · right
          rw [h]
    · rw [splitlines_cons_break _ hb hc, splitlines_cons_break _ hb hc]
      rcases ih with h | h
      · left
        rw [h]
        rfl
      · right
        rw [h]
  | case4 c rest g hb hsp ih =>
    have hb' : isLineBreak c = false := by simpa using hb
    have hrest : rest = [] := splitlines_eq_nil_iff.mp hsp
    subst hrest
    right
    simp only [List.cons_append, List.nil_append]
    have h1 : splitlines ['\n'] = [[]] := by decide
    rw [splitlines_cons_nonbreak _ hb', h1, splitlines_cons_nonbreak _ hb', splitlines_nil]
  | case5 c rest g hb L Ls hsp ih =>
    have hb' : isLineBreak c = false := by simpa using hb
    simp only [List.cons_append] at ih ⊢
    rw [splitlines_cons_nonbreak _ hb', splitlines_cons_nonbreak _ hb', hsp]
    rcases ih with h | h
    · rw [h, hsp]
      left
      rfl
    · rw [h, hsp]
      right
      rfl

theorem firstLineVal_append_after {raw extra t : List Char}
    (h : firstLineVal raw = some t) :
    firstLineVal (raw ++ '\n' :: extra) = some t := by
  unfold firstLineVal at h ⊢
  rw [splitlines_append_lf raw extra, List.findSome?_append]
  rcases splitlines_append_lf_nil raw with h2 | h2
  · rw [h2, List.findSome?_append, h]
    rfl
  · rw [h2, h]
    rfl

theorem splitlines_mem_no_break {l : List Char} :
    ∀ ln ∈ splitlines l, ∀ c ∈ ln, isLineBreak c = false := by
  induction l using splitlines.induct with
  | case1 => simp [splitlines_nil]
  | case2 rest ih =>
    rw [splitlines_crlf]
    intro ln hln
    rcases List.mem_cons.mp hln with h | h
    · subst h
      simp
    · exact ih ln h
  | case3 c rest g hb ih =>
    rw [splitlines_cons_eq c rest g, if_pos hb]
    intro ln hln
    rcases List.mem_cons.mp hln with h | h
    · subst h
      simp
    · exact ih ln h
  | case4 c rest g hb hsp ih =>
    have hb' : isLineBreak c = false := by simpa using hb
    rw [splitlines_cons_eq c rest g, if_neg hb, hsp]
    intro ln hln
    simp at hln
    subst hln
    intro c' hc'
    simp at hc'
    subst hc'
    exact hb'
  | case5 c rest g hb L Ls hsp ih =>
    have hb' : isLineBreak c = false := by simpa using hb
    rw [splitlines_cons_eq c rest g, if_neg hb, hsp]
    intro ln hln
    rcases List.mem_cons.mp hln with h | h
    · subst h
      intro c' hc'
      rcases List.mem_cons.mp hc' with h2 | h2
      · subst h2
        exact hb'
      · exact ih L (hsp ▸ List.mem_cons_self _ _) c' h2
    · exact ih ln (hsp ▸ List.mem_cons_of_mem _ h)

theorem splitlines_of_no_break {l : List Char} (h : ∀ c ∈ l, isLineBreak c = false)
    (hne : l ≠ []) : splitlines l = [l] := by
  induction l with
  | nil => exact absurd rfl hne
  | cons c t ih =>
    have hc : isLineBreak c = false := h c (by simp)
    rw [splitlines_cons_nonbreak _ hc]
    cases t with
    | nil => rfl
    | cons c₁ t' =>
      rw [ih (fun x hx => h x (by simp [hx])) (by simp)]

theorem firstLineVal_some_props {raw t : List Char} (h : firstLineVal raw = some t) :
    pyStrip t = t ∧ t ≠ [] ∧ ∀ c ∈ t, isLineBreak c = false := by
  unfold firstLineVal at h
  obtain ⟨ln, hmem, hval⟩ := List.exists_of_findSome?_eq_some h
  unfold strippedIfNonblank at hval
  by_cases h0 : pyStrip ln = []
  · rw [if_pos h0] at hval
    exact Option.noConfusion hval
  · rw [if_neg h0] at hval
    have ht : t = pyStrip ln := (Option.some.inj hval).symm
    subst ht
    refine ⟨pyStrip_idem ln, h0, ?_⟩
    intro c hc
    exact splitlines_mem_no_break ln hmem c (mem_of_mem_pyStrip hc)

theorem firstLineVal_of_stripped_line {t : List Char} (h1 : pyStrip t = t) (h2 : t ≠ [])
    (h3 : ∀ c ∈ t, isLineBreak c = false) : firstLineVal t = some t := by
  unfold firstLineVal
  rw [splitlines_of_no_break h3 h2]
  simp [List.findSome?_cons, strippedIfNonblank, h1, h2]

/-! ### Lemmas about the classifier -/

theorem asString_data (l : List Char) : (List.asString l).data = l := rfl

theorem asString_ne_empty {l : List Char} (h : l ≠ []) : l.asString ≠ "" := by
  intro h0
  exact h (by simpa [List.asString, String.ext_iff] using h0)

theorem tagSplit_tok_ne_nil {l tok rest : List Char}
    (h : tagSplit l = some (tok, rest)) : tok ≠ [] := by
  unfold tagSplit at h
  split at h
  · split at h
    · rename_i hcond
      have h2 := Option.some.inj h
      have htok : tok = l.takeWhile isAsciiAlnum := (congrArg Prod.fst h2).symm
      rw [htok]
      exact hcond.2
    · exact Option.noConfusion h
  · exact Option.noConfusion h

theorem pyLower_ne_nil {tok : List Char} (h : tok ≠ []) : pyLower tok ≠ [] := by
  unfold pyLower
  simpa using h

theorem resolveTag_some {p0 ub : String} {m : TagMap} {p : String}
    (h : resolveTag p0 ub m = some p) : p = p0 ∨ p = "misc" := by
  unfold resolveTag at h
  split at h
  · exact Or.inl (Option.some.inj h).symm
  · split at h
    · exact Or.inr (Option.some.inj h).symm
    · exact Option.noConfusion h

/-- C1: for every raw text input, tag map, and unknown-tag policy, the
classifier (a total function by construction in this embedding, as in the
source, which has no raising operation on this path) returns either `none` or
an entry whose tag (`type`), `section` and `text` fields are all non-empty
strings. -/
theorem parse_entry_fields_nonempty (raw ub : String) (m : TagMap)
    (e : ClassifiedEntry) (h : parse_clipboard_text raw ub m = some e) :
    e.type ≠ "" ∧ e.section_ ≠ "" ∧ e.text ≠ "" := by
  unfold parse_clipboard_text at h
  split at h
  · exact Option.noConfusion h
  · unfold classifyLine at h
    split at h
    · exact Option.noConfusion h
    · rename_i tok rest hts
      split at h
      · exact Option.noConfusion h
      · rename_i htext
        split at h
        · exact Option.noConfusion h
        · rename_i p hp
          split at h
          · exact Option.noConfusion h
          · rename_i hsec
            have he := Option.some.inj h
            rw [← he]
            refine ⟨?_, ?_, ?_⟩
            · dsimp only
              rcases resolveTag_some hp with h1 | h1
              · rw [h1]
                exact asString_ne_empty (pyLower_ne_nil (tagSplit_tok_ne_nil hts))
              · rw [h1]
                decide
            · dsimp only
              exact asString_ne_empty hsec
            · dsimp only
              exact asString_ne_empty htext

/-- C1 witness: a concrete input on which the classifier produces an entry,
whose fields are then non-empty by the theorem. -/
theorem parse_entry_fields_nonempty_witness :
    parse_clipboard_text "todo: buy milk" "map_to_misc" DEFAULT_TAG_MAP =
      some ⟨"todo", "TODO", "buy milk"⟩ ∧
    ("todo" ≠ "" ∧ "TODO" ≠ "" ∧ "buy milk" ≠ "") :=
  ⟨by decide, parse_entry_fields_nonempty "todo: buy milk" "map_to_misc" DEFAULT_TAG_MAP
    ⟨"todo", "TODO", "buy milk"⟩ (by decide)⟩

/-- C4: if the first non-blank line matches `token:rest` with non-empty
trimmed rest and the lower-cased token is absent from the tag map, then the
`ignore` policy returns `none`, and the `map_to_misc` policy substitutes the
reserved fallback tag `misc` and resolves its section from the tag map. -/
theorem unknown_tag_policy (raw : String) (m : TagMap) (l : String)
    (tok rest : List Char)
    (h1 : first_nonblank_line raw = some l)
    (h2 : tagSplit l.data = some (tok, rest))
    (h3 : ¬ pyStrip rest = [])
    (h4 : m.lookup (pyLower tok).asString = none) :
    parse_clipboard_text raw "ignore" m = none ∧
    ∀ ms : String, m.lookup "misc" = some ms → ¬ pyStrip ms.data = [] →
      parse_clipboard_text raw "map_to_misc" m =
        some ⟨"misc", (pyStrip ms.data).asString, (pyStrip rest).asString⟩ := by
  unfold first_nonblank_line at h1
  rw [Option.map_eq_some'] at h1
  obtain ⟨t, ht, hts⟩ := h1
  have htl : l.data = t := by
    rw [← hts]
    exact asString_data t
  rw [htl] at h2
  have hline : ∀ ub : String, parse_clipboard_text raw ub m = classifyLine t ub m := by
    intro ub
    unfold parse_clipboard_text
    rw [ht]
  have hres : ∀ ub : String, resolveTag (pyLower tok).asString ub m =
      (if ub = "map_to_misc" then some "misc" else none) := by
    intro ub
    unfold resolveTag
    rw [h4]
    rfl
  constructor
  · rw [hline "ignore"]
    unfold classifyLine
    simp only [h2, if_neg h3, hres "ignore"]
    rfl
  · intro ms hms hsec
    rw [hline "map_to_misc"]
    unfold classifyLine
    simp only [h2, if_neg h3, hres "map_to_misc", if_true]
    simp only [hms, Option.getD_some, if_neg hsec]

/-- C4 witness: `"xyz: something"` with the default tag map is ignored under
the `ignore` policy and mapped to `misc`/`Miscellany` under `map_to_misc`. -/
theorem unknown_tag_policy_witness :
    (first_nonblank_line "xyz: something" = some "xyz: something" ∧
     tagSplit ("xyz: something").data = some ("xyz".data, " something".data) ∧
     ¬ pyStrip (" something").data = [] ∧
     DEFAULT_TAG_MAP.lookup (pyLower "xyz".data).asString = none) ∧
    parse_clipboard_text "xyz: something" "ignore" DEFAULT_TAG_MAP = none ∧
    parse_clipboard_text "xyz: something" "map_to_misc" DEFAULT_TAG_MAP =
      some ⟨"misc", (pyStrip ("Miscellany").data).asString,
        (pyStrip (" something").data).asString⟩ :=
  ⟨⟨by decide, by decide, by decide, by decide⟩,
   (unknown_tag_policy "xyz: something" DEFAULT_TAG_MAP "xyz: something"
      "xyz".data " something".data (by decide) (by decide) (by decide) (by decide)).1,
   (unknown_tag_policy "xyz: something" DEFAULT_TAG_MAP "xyz: something"
      "xyz".data " something".data (by decide) (by decide) (by decide) (by decide)).2
     "Miscellany" (by decide) (by decide)⟩

theorem parse_congr {s t : String} (ub : String) (m : TagMap)
    (h : firstLineVal s.data = firstLineVal t.data) :
    parse_clipboard_text s ub m = parse_clipboard_text t ub m := by
  unfold parse_clipboard_text
  rw [h]

theorem strippedIfNonblank_congr {a b : List Char} (h : pyStrip a = pyStrip b) :
    strippedIfNonblank a = strippedIfNonblank b := by
  unfold strippedIfNonblank
  rw [h]

theorem firstLineVal_no_break {l : List Char} (h : ∀ c ∈ l, isLineBreak c = false) :
    firstLineVal l = strippedIfNonblank l := by
  cases hl : l with
  | nil => rfl
  | cons c t =>
    rw [← hl]
    unfold firstLineVal
    rw [splitlines_of_no_break h (by rw [hl]; simp)]
    cases hs : strippedIfNonblank l <;> simp [List.findSome?_cons, hs]

/-- C10: the classifier strips the selected line before matching the anchored
tag pattern, so surrounding the tagged line (a string with no line breaks)
with leading whitespace and trailing non-breaking whitespace does not change
the classification result. -/
theorem surrounding_whitespace_irrelevant (w1 s w2 ub : String) (m : TagMap)
    (hs : ∀ c ∈ s.data, isLineBreak c = false)
    (h1 : ∀ c ∈ w1.data, pyIsSpace c = true)
    (h2 : ∀ c ∈ w2.data, pyIsSpace c = true ∧ isLineBreak c = false) :
    parse_clipboard_text (w1 ++ s ++ w2) ub m = parse_clipboard_text s ub m := by
  apply parse_congr
  have hd : (w1 ++ s ++ w2).data = w1.data ++ (s.data ++ w2.data) := by
    rw [String.data_append, String.data_append, List.append_assoc]
  rw [hd, firstLineVal_append_space _ h1]
  have hnb : ∀ c ∈ s.data ++ w2.data, isLineBreak c = false := by
    intro c hc
    rcases List.mem_append.mp hc with h | h
    · exact hs c h
    · exact (h2 c h).2
  rw [firstLineVal_no_break hnb, firstLineVal_no_break hs]
  exact strippedIfNonblank_congr (pyStrip_append_space_right fun c hc => (h2 c hc).1)

/-- C10 witness: surrounding `"todo: x"` with spaces gives the same entry. -/
theorem surrounding_whitespace_irrelevant_witness :
    parse_clipboard_text ("  " ++ "todo: x" ++ "  ") "map_to_misc" DEFAULT_TAG_MAP =
      parse_clipboard_text "todo: x" "map_to_misc" DEFAULT_TAG_MAP :=
  surrounding_whitespace_irrelevant "  " "todo: x" "  " "map_to_misc" DEFAULT_TAG_MAP
    (by decide) (by decide) (by decide)

theorem blanks_join_space {blanks : List String}
    (hb : ∀ b ∈ blanks, ∀ c ∈ b.data, pyIsSpace c = true) :
    ∀ c ∈ ((blanks.map (· ++ "\n")).foldr (· ++ ·) "").data, pyIsSpace c = true := by
  induction blanks with
  | nil =>
    intro c hc
    simp at hc
  | cons b bs ih =>
    intro c hc
    simp only [List.map_cons, List.foldr_cons] at hc
    rw [String.data_append] at hc
    rcases List.mem_append.mp hc with h | h
    · rw [String.data_append] at h
      rcases List.mem_append.mp h with h' | h'
      · exact hb b (by simp) c h'
      · have hc2 : c = '\n' := by simpa using h'
        subst hc2
        decide
    · exact ih (fun b2 hb2 => hb b2 (by simp [hb2])) c h

/-- C9: only the first non-blank line is ever consulted: prepending blank
(whitespace-only) lines, or appending further lines after the first non-blank
line, yields the identical classification to the first non-blank line alone. -/
theorem first_nonblank_line_decides (blanks : List String) (raw extra ub : String)
    (m : TagMap) (l : String)
    (hb : ∀ b ∈ blanks, ∀ c ∈ b.data, pyIsSpace c = true)
    (hl : first_nonblank_line raw = some l) :
    parse_clipboard_text ((blanks.map (· ++ "\n")).foldr (· ++ ·) "" ++ raw) ub m =
      parse_clipboard_text raw ub m ∧
    parse_clipboard_text (raw ++ "\n" ++ extra) ub m =
      parse_clipboard_text raw ub m ∧
    parse_clipboard_text raw ub m = parse_clipboard_text l ub m := by
  unfold first_nonblank_line at hl
  rw [Option.map_eq_some'] at hl
  obtain ⟨t, ht, hts⟩ := hl
  refine ⟨?_, ?_, ?_⟩
  · apply parse_congr
    rw [String.data_append]
    exact firstLineVal_append_space _ (blanks_join_space hb)
  · apply parse_congr
    have hd : (raw ++ "\n" ++ extra).data = raw.data ++ '\n' :: extra.data := by
      rw [String.data_append, String.data_append, List.append_assoc]
      rfl
    rw [hd, firstLineVal_append_after ht, ht]
  · apply parse_congr
    obtain ⟨hstrip, hne, hnb⟩ := firstLineVal_some_props ht
    have hld : l.data = t := by
      rw [← hts]
      exact asString_data t
    rw [ht, hld]
    exact (firstLineVal_of_stripped_line hstrip hne hnb).symm

/-- C9 witness: a blank line before, and noise lines after, `"todo: milk"`
classify identically to the line alone. -/
theorem first_nonblank_line_decides_witness :
    first_nonblank_line "todo: milk\nnoise" = some "todo: milk" ∧
    (parse_clipboard_text ((([" ", ""]).map (· ++ "\n")).foldr (· ++ ·) "" ++
        "todo: milk\nnoise") "map_to_misc" DEFAULT_TAG_MAP =
      parse_clipboard_text "todo: milk\nnoise" "map_to_misc" DEFAULT_TAG_MAP ∧
    parse_clipboard_text ("todo: milk\nnoise" ++ "\n" ++ "more") "map_to_misc"
        DEFAULT_TAG_MAP =
      parse_clipboard_text "todo: milk\nnoise" "map_to_misc" DEFAULT_TAG_MAP ∧
    parse_clipboard_text "todo: milk\nnoise" "map_to_misc" DEFAULT_TAG_MAP =
      parse_clipboard_text "todo: milk" "map_to_misc" DEFAULT_TAG_MAP) :=
  ⟨by decide,
   first_nonblank_line_decides [" ", ""] "todo: milk\nnoise" "more" "map_to_misc"
     DEFAULT_TAG_MAP "todo: milk" (by decide) (by decide)⟩

/-! ### Delivery client -/

/-- C2 counterexample: a 2xx response whose body is not exactly the literal
`"OK"` — it carries surrounding whitespace — is nevertheless Delivered,
because the source strips the body before comparing (`.strip()` on the decoded
body); so "Delivered exactly when the body is exactly `"OK"`" is false as
stated. -/
theorem delivered_despite_body_not_exactly_ok :
    (post_payload "none" (Except.error AuthError.noToken)
        (NetResult.response 200 " OK ")).outcome = Outcome.Delivered ∧
    " OK " ≠ "OK" :=
  ⟨by decide, by decide⟩

/-- C2 (amended): for every delivery attempt that reaches the network, the
outcome is Delivered exactly when the HTTP status is 2xx and the response body
stripped of surrounding whitespace equals `"OK"`; a 2xx response with any
other (stripped) body, or a non-2xx response (`HTTPError`), is Rejected; a
connection/timeout/DNS failure (`URLError`, or any other transport exception)
is TransportFailure — every branch returns, never a crash. -/
theorem delivery_outcome_by_net (am : String) (auth : Except AuthError AuthResult)
    (net : NetResult) (h : (post_payload am auth net).requestSent = true) :
    (∀ status body, net = .response status body →
      ((post_payload am auth net).outcome = .Delivered ↔
        (200 ≤ status ∧ status < 300 ∧ (pyStrip body.data).asString = "OK"))) ∧
    (∀ status body, net = .response status body →
      ¬ (200 ≤ status ∧ status < 300 ∧ (pyStrip body.data).asString = "OK") →
      (post_payload am auth net).outcome = .Rejected status (pyStrip body.data).asString) ∧
    (∀ code d, net = .httpError code d →
      (post_payload am auth net).outcome = .Rejected code d) ∧
    (∀ d, net = .urlError d →
      (post_payload am auth net).outcome = .TransportFailure d) ∧
    (∀ d, net = .otherError d →
      (post_payload am auth net).outcome = .TransportFailure d) := by
  have hsend : post_payload am auth net = sendRequest net := by
    unfold post_payload at h ⊢
    by_cases ham : am = "oauth_user"
    · rw [if_pos ham] at h ⊢
      cases auth with
      | error e => simp at h
      | ok a => rfl
    · rw [if_neg ham] at h ⊢
  rw [hsend]
  refine ⟨?_, ?_, ?_, ?_, ?_⟩
  · rintro status body rfl
    unfold sendRequest
    dsimp only
    by_cases hC : 200 ≤ status ∧ status < 300 ∧ (pyStrip body.data).asString = "OK"
    · rw [if_pos hC]
      simp [hC]
    · rw [if_neg hC]
      simp [hC]
  · rintro status body rfl hC
    unfold sendRequest
    dsimp only
    rw [if_neg hC]
  · rintro code d rfl
    rfl
  · rintro d rfl
    rfl
  · rintro d rfl
    rfl

/-- C2 witness: a 2xx response with body `"OK\n"` (strips to `"OK"`) reaches
the network and is Delivered. -/
theorem delivery_outcome_by_net_witness :
    (post_payload "none" (Except.error AuthError.noToken)
        (NetResult.response 200 "OK\n")).requestSent = true ∧
    (post_payload "none" (Except.error AuthError.noToken)
        (NetResult.response 200 "OK\n")).outcome = Outcome.Delivered :=
  ⟨by decide,
   ((delivery_outcome_by_net "none" (Except.error AuthError.noToken)
      (NetResult.response 200 "OK\n") (by decide)).1 200 "OK\n" rfl).mpr (by decide)⟩

/-- C7: under `oauth_user`, a failed token acquisition makes the delivery
client return an AuthFailure outcome with no HTTP request built or sent — the
result is the same whatever the network would have answered. -/
theorem auth_failure_skips_network (e : AuthError) (net : NetResult)
    (auth : Except AuthError AuthResult) (h : auth = .error e) :
    post_payload "oauth_user" auth net =
      ⟨false, .AuthFailure (authErrorMessage e), false⟩ := by
  subst h
  rfl

/-- C7 witness: a concrete failed acquisition with a network that would have
answered 200/OK still yields AuthFailure with no request sent. -/
theorem auth_failure_skips_network_witness :
    post_payload "oauth_user" (Except.error AuthError.noToken)
        (NetResult.response 200 "OK") =
      ⟨false, Outcome.AuthFailure "Could not obtain OAuth access token", false⟩ :=
  auth_failure_skips_network AuthError.noToken (NetResult.response 200 "OK")
    (Except.error AuthError.noToken) rfl

/-! ### Credential manager -/

/-- C8: when the cache holds an unexpired credential with a non-empty token,
the manager returns that token with no interactive step, no cache write, and
the on-disk cache unchanged — whatever the refresh or flow would have done. -/
theorem valid_cached_token_no_write (env : OAuthEnv) (c : Creds) (t : String)
    (h1 : env.cached = some c) (h2 : c.token = some t) (h3 : t ≠ "")
    (h4 : c.expired = false) :
    get_oauth_access_token env = .ok ⟨t, env.cached, false, false⟩ := by
  have hvalid : c.valid = true := by
    unfold Creds.valid
    rw [h2, h4]
    rfl
  unfold get_oauth_access_token finalTokenCheck
  simp [h1, hvalid, h2, optTruthy, h3]

/-- C8 witness: a concrete cached valid token is returned unchanged with no
write and no interactive run, even though refresh and flow would both fail. -/
theorem valid_cached_token_no_write_witness :
    get_oauth_access_token
        ⟨some ⟨some "tok", false, none⟩, true, "/cfg/secret.json",
          Except.error "refresh broken", Except.error "flow broken"⟩ =
      Except.ok ⟨"tok", some ⟨some "tok", false, none⟩, false, false⟩ :=
  valid_cached_token_no_write
    ⟨some ⟨some "tok", false, none⟩, true, "/cfg/secret.json",
      Except.error "refresh broken", Except.error "flow broken"⟩
    ⟨some "tok", false, none⟩ "tok" rfl rfl (by decide) rfl

/-- C5 counterexample: a cached expired credential with a refresh token, a
failing refresh, and an interactive flow that would succeed: the manager
returns the refresh error outright (the exception propagates out of
`get_oauth_access_token`) instead of transitioning to the interactive
authorization exchange. -/
theorem refresh_failure_no_interactive_fallback :
    get_oauth_access_token
        ⟨some ⟨some "old", true, some "rt"⟩, true, "/cfg/secret.json",
          Except.error "invalid_grant", Except.ok ⟨some "fresh", false, some "rt2"⟩⟩ =
      Except.error (AuthError.refreshError "invalid_grant") ∧
    (⟨some "fresh", false, some "rt2"⟩ : Creds).valid = true :=
  ⟨by decide, by decide⟩

/-- C5 (amended): when the cached credential is expired and carries a (truthy)
refresh token, a refresh is attempted; on success the updated credential is
persisted to the cache file and its token returned; on failure the exception
propagates — the token request fails (surfacing as a per-attempt AuthFailure
at the delivery client), and no interactive authorization is attempted. -/
theorem refresh_success_persists_failure_propagates (env : OAuthEnv) (c : Creds)
    (h1 : env.cached = some c) (h2 : c.expired = true)
    (h3 : optTruthy c.refresh_token = true) :
    (∀ c' t, env.refreshResult = .ok c' → c'.token = some t → ¬ t = "" →
      get_oauth_access_token env = .ok ⟨t, some c', true, false⟩) ∧
    (∀ msg, env.refreshResult = .error msg →
      get_oauth_access_token env = .error (.refreshError msg) ∧
      ∀ net, post_payload "oauth_user" (get_oauth_access_token env) net =
        ⟨false, .AuthFailure msg, false⟩) := by
  have hvalid : c.valid = false := by
    unfold Creds.valid
    rw [h2]
    simp
  constructor
  · intro c' t hr ht hne
    have htt : optTruthy c'.token = true := by
      rw [ht]
      simp [optTruthy, hne]
    have htd : c'.token.getD "" = t := by
      rw [ht]
      rfl
    unfold get_oauth_access_token finalTokenCheck
    simp [h1, hvalid, h2, h3, hr, htt, htd]
  · intro msg hr
    have hmain : get_oauth_access_token env = .error (.refreshError msg) := by
      unfold get_oauth_access_token
      simp [h1, hvalid, h2, h3, hr]
    refine ⟨hmain, fun net => ?_⟩
    rw [hmain]
    rfl

/-- C5 witness: a concrete successful refresh persists the refreshed
credential (file written) and returns its token without interactive auth. -/
theorem refresh_success_persists_witness :
    get_oauth_access_token
        ⟨some ⟨some "old", true, some "rt"⟩, true, "/cfg/secret.json",
          Except.ok ⟨some "fresh", false, some "rt"⟩, Except.error "flow broken"⟩ =
      Except.ok ⟨"fresh", some ⟨some "fresh", false, some "rt"⟩, true, false⟩ :=
  (refresh_success_persists_failure_propagates
    ⟨some ⟨some "old", true, some "rt"⟩, true, "/cfg/secret.json",
      Except.ok ⟨some "fresh", false, some "rt"⟩, Except.error "flow broken"⟩
    ⟨some "old", true, some "rt"⟩ rfl rfl (by decide)).1
    ⟨some "fresh", false, some "rt"⟩ "fresh" rfl rfl (by decide)

/-- C6 counterexample: with no cached token and the client-secrets file
missing, the acquisition error (which names the path) is caught by the
delivery client inside a loop iteration: the iteration completes with an
AuthFailure delivery outcome and no request sent, and the next iteration with
changed content is still processed — the failure is per-iteration and
recoverable, not fatal before the watch loop starts. -/
theorem missing_client_secret_not_fatal :
    get_oauth_access_token
        ⟨none, false, "/cfg/oauth_client_secret.json", Except.error "unused",
          Except.ok ⟨some "tok", false, none⟩⟩ =
      Except.error (AuthError.clientSecretsMissing "/cfg/oauth_client_secret.json") ∧
    loop_iter ⟨"map_to_misc", DEFAULT_TAG_MAP, "LB", "oauth_user"⟩
        (get_oauth_access_token ⟨none, false, "/cfg/oauth_client_secret.json",
          Except.error "unused", Except.ok ⟨some "tok", false, none⟩⟩)
        (NetResult.response 200 "OK") none (ClipRead.ok "todo: x") =
      ⟨some "todo: x", true, some ⟨"todo", "TODO", "x"⟩,
        some ⟨false, Outcome.AuthFailure
          "OAuth client secrets file not found: /cfg/oauth_client_secret.json",
          false⟩⟩ ∧
    (loop_iter ⟨"map_to_misc", DEFAULT_TAG_MAP, "LB", "oauth_user"⟩
        (get_oauth_access_token ⟨none, false, "/cfg/oauth_client_secret.json",
          Except.error "unused", Except.ok ⟨some "tok", false, none⟩⟩)
        (NetResult.response 200 "OK") (some "todo: x")
        (ClipRead.ok "fu: y")).processed = true :=
  ⟨by decide, by decide, by decide⟩

/-- C6 (amended): when interactive authorization would be required and the
client-secrets file does not exist, token acquisition fails with an error
naming the missing path; the delivery client catches it and turns it into a
per-attempt AuthFailure outcome with no request sent — the failure happens
inside the loop and does not stop the program. -/
theorem missing_client_secret_named_recoverable (env : OAuthEnv)
    (h1 : needsInteractive env = true) (h2 : env.client_secrets_exists = false) :
    get_oauth_access_token env =
      .error (.clientSecretsMissing env.client_secrets_path) ∧
    ∀ net, post_payload "oauth_user" (get_oauth_access_token env) net =
      ⟨false, .AuthFailure ("OAuth client secrets file not found: " ++
        env.client_secrets_path), false⟩ := by
  have hmain : get_oauth_access_token env =
      .error (.clientSecretsMissing env.client_secrets_path) := by
    unfold needsInteractive at h1
    unfold get_oauth_access_token
    cases henv : env.cached with
    | none => simp [henv, h2]
    | some c =>
      rw [henv] at h1
      simp only [Bool.and_eq_true, Bool.not_eq_true'] at h1
      simp [henv, h1.1, h1.2, h2]
  exact ⟨hmain, fun net => by rw [hmain]; rfl⟩

/-- C6 amended-witness: concrete instantiation of the amended statement. -/
theorem missing_client_secret_named_recoverable_witness :
    get_oauth_access_token
        ⟨none, false, "/cfg/oauth_client_secret.json", Except.error "unused",
          Except.error "flow broken"⟩ =
      Except.error (AuthError.clientSecretsMissing "/cfg/oauth_client_secret.json") ∧
    post_payload "oauth_user"
        (get_oauth_access_token ⟨none, false, "/cfg/oauth_client_secret.json",
          Except.error "unused", Except.error "flow broken"⟩)
        (NetResult.response 200 "OK") =
      ⟨false, Outcome.AuthFailure
        ("OAuth client secrets file not found: " ++ "/cfg/oauth_client_secret.json"),
        false⟩ :=
  ⟨(missing_client_secret_named_recoverable
      ⟨none, false, "/cfg/oauth_client_secret.json", Except.error "unused",
        Except.error "flow broken"⟩ (by decide) rfl).1,
   (missing_client_secret_named_recoverable
      ⟨none, false, "/cfg/oauth_client_secret.json", Except.error "unused",
        Except.error "flow broken"⟩ (by decide) rfl).2
     (NetResult.response 200 "OK")⟩

/-! ### Watch loop -/

/-- C3: an iteration that observes content `v` always ends with
`last_clipboard = some v` — the update happens whether classification returns
`none`, delivery fails, or the content was already current — and from a state
where `last_clipboard = some v`, a run in which every successful read still
returns `v` (reads may also fail) processes nothing: the same clipboard value
is classified and delivery-attempted at most once until the content changes to
something else. -/
theorem watch_loop_at_most_once (cfg : LoopConfig)
    (auth : Except AuthError AuthResult) (net : NetResult) (last : Option String)
    (v : String) (reads : List ClipRead) (h : allReadsAre v reads = true) :
    (loop_iter cfg auth net last (.ok v)).last_clipboard = some v ∧
    noneProcessed (iterTrace cfg auth net (some v) reads) = true := by
  constructor
  · unfold loop_iter
    dsimp only
    by_cases hl : last = some v
    · rw [if_pos hl]
      exact hl
    · rw [if_neg hl]
      cases hp : parse_clipboard_text v cfg.unknown_prefix_behavior cfg.tag_map <;>
        simp [hp]
  · induction reads with
    | nil => rfl
    | cons r rs ih =>
      cases r with
      | err msg =>
        have ho : loop_iter cfg auth net (some v) (.err msg) =
            ⟨some v, false, none, none⟩ := rfl
        unfold iterTrace noneProcessed
        rw [ho]
        simp only [List.all_cons, Bool.not_false, Bool.true_and]
        exact ih h
      | ok s =>
        unfold allReadsAre at h
        rw [Bool.and_eq_true] at h
        obtain ⟨hs, hrest⟩ := h
        have hsv : s = v := by simpa using hs
        subst hsv
        have ho : loop_iter cfg auth net (some s) (.ok s) =
            ⟨some s, false, none, none⟩ := by
          unfold loop_iter
          dsimp only
          rw [if_pos rfl]
        unfold iterTrace noneProcessed
        rw [ho]
        simp only [List.all_cons, Bool.not_false, Bool.true_and]
        exact ih hrest

/-- C3 witness: after processing `"todo: x"`, re-reading the same value (with
a failed read in between) processes nothing further. -/
theorem watch_loop_at_most_once_witness :
    (loop_iter ⟨"map_to_misc", DEFAULT_TAG_MAP, "LB", "none"⟩
        (Except.error AuthError.noToken) (NetResult.response 200 "OK") none
        (ClipRead.ok "todo: x")).last_clipboard = some "todo: x" ∧
    noneProcessed (iterTrace ⟨"map_to_misc", DEFAULT_TAG_MAP, "LB", "none"⟩
        (Except.error AuthError.noToken) (NetResult.response 200 "OK")
        (some "todo: x")
        [ClipRead.ok "todo: x", ClipRead.err "boom", ClipRead.ok "todo: x"]) =
      true :=
  watch_loop_at_most_once ⟨"map_to_misc", DEFAULT_TAG_MAP, "LB", "none"⟩
    (Except.error AuthError.noToken) (NetResult.response 200 "OK") none "todo: x"
    [ClipRead.ok "todo: x", ClipRead.err "boom", ClipRead.ok "todo: x"] (by decide)

end TodoClip
